import Mathlib

/-!
Verification of the `rers` vmod (regex inspection and body rewriting for a
proxy/cache pipeline) against its natural-language specification.

The model is a shallow embedding of `src/lib.rs`:
- VCL strings and body payloads are byte sequences (`List Nat`, each < 256 in
  practice; no bound is needed by the theorems).
- The external regex engine (the `regex::bytes` crate) is a black box per the
  spec; it is modelled as an abstract `RegexEngine` whose `compile` returns a
  `CompiledRegex`, together with one concrete executable instance
  (`literalEngine`) used for witnesses and counterexamples.
- The `lru` crate cache is modelled as an association list ordered from
  most-recently-used to least-recently-used.
- Stateful Rust methods become pure functions that thread the cache or
  rewriter state explicitly; fallible methods return `Except`.
-/

namespace Rers

/-- Raw byte sequences: the payloads the vmod operates on. -/
abbrev Bytes := List Nat

/-- Model of `clamp_i64_to_usize` in `lib.rs`:
`usize::try_from(value).unwrap_or(if value < 0 { 0 } else { usize::MAX })`.
On a 64-bit platform `try_from` succeeds for every non-negative `i64`, so the
function clamps negatives to 0 and is the identity otherwise. -/
def clamp_i64_to_usize (value : Int) : Nat :=
  if value < 0 then 0 else value.toNat

/-- Model of `regex::bytes::Captures`: `groups.get? i` is `caps.get(i)`
(index 0 = whole match, `none` for out-of-range or non-participating groups),
and `names` is the name-keyed view backing `caps.name(..)`. -/
structure CapturesVal where
  groups : List (Option Bytes)
  names : List (String × Option Bytes)
deriving DecidableEq

/-- Model of a compiled `regex::bytes::Regex` (a black box per the spec):
`findMatches` returns the leftmost, non-overlapping match spans
(start, length) in left-to-right order, and `captures` the capture set of the
first match, if any. -/
structure CompiledRegex where
  findMatches : Bytes → List (Nat × Nat)
  captures : Bytes → Option CapturesVal

/-- Splice `sub` into `hay` over the given (sorted, disjoint) match spans,
starting from offset `i`: the pieces of `hay` between matches are kept and
each matched span is replaced by `sub`. -/
def splice (hay sub : Bytes) : Nat → List (Nat × Nat) → Bytes
  | i, [] => hay.drop i
  | i, (s, l) :: rest => (hay.drop i).take (s - i) ++ sub ++ splice hay sub (s + l) rest

/-- Modelled from the spec: the external engine contract of
`Regex::replacen(haystack, limit, sub)` — replaces the first `limit`
non-overlapping matches left to right, all of them when `limit = 0`.
Replacement-template group expansion is abstracted as literal substitution
(no theorem below depends on templates). -/
def CompiledRegex.replacen (re : CompiledRegex) (hay : Bytes) (limit : Nat) (sub : Bytes) :
    Bytes :=
  splice hay sub 0 (if limit = 0 then re.findMatches hay else (re.findMatches hay).take limit)

/-- Modelled from the spec: `Regex::is_match` holds iff at least one match exists. -/
def CompiledRegex.is_match (re : CompiledRegex) (hay : Bytes) : Bool :=
  !(re.findMatches hay).isEmpty

/-- The external regex engine: compilation either yields a matcher or a
parse-error string. -/
structure RegexEngine where
  compile : String → Except String CompiledRegex

/-- The outcome stored in the pattern cache: `Result<Regex, String>`. -/
abbrev RegexResult := Except String CompiledRegex

/-- Model of `lru::LruCache<String, α>`: entries ordered most-recently-used
first, with capacity `cap`. -/
structure Lru (α : Type) where
  cap : Nat
  entries : List (String × α)

/-- Model of `LruCache::get`: a hit promotes the entry to most-recently-used
and returns its value; a miss leaves the cache unchanged. -/
def Lru.get {α : Type} (l : Lru α) (k : String) : Option α × Lru α :=
  match l.entries.find? (fun p => p.1 == k) with
  | none => (none, l)
  | some p =>
      (some p.2, { cap := l.cap, entries := p :: l.entries.filter (fun q => !(q.1 == k)) })

/-- Model of `LruCache::put`: insert (or update) `k` at the most-recently-used
position, evicting the least-recently-used entry if the cache is full. -/
def Lru.put {α : Type} (l : Lru α) (k : String) (v : α) : Lru α :=
  { cap := l.cap,
    entries := (k, v) :: (l.entries.filter (fun q => !(q.1 == k))).take (l.cap - 1) }

/-- The keys of the cache, most-recently-used first. -/
def Lru.keys {α : Type} (l : Lru α) : List String := l.entries.map Prod.fst

/-- The pattern cache of the `init` object. -/
abbrev Cache := Lru RegexResult

/-- Model of `init::new`: capacity is `cache_size` clamped to `usize`, then
forced non-zero (`NonZeroUsize::new(..).unwrap_or(NonZeroUsize::MIN)`); the
Rust default argument is 1000. The cache starts empty. -/
def init.new (cache_size : Int) : Cache :=
  let cap := clamp_i64_to_usize cache_size
  { cap := if cap = 0 then 1 else cap, entries := [] }

/-- The cache state of `init::get_regex` after the conditional compile-and-put
(`if lru.get(res).is_none() { lru.put(res, compile(res)) }`). -/
def init.get_regex_cache (E : RegexEngine) (l : Cache) (res : String) : Cache :=
  match (l.get res).1 with
  | none => ((l.get res).2).put res (E.compile res)
  | some _ => (l.get res).2

/-- Model of `init::get_regex`: look the pattern up in the cache; on a miss,
compile it and store the outcome (success or failure alike); finally return
the cached outcome (`lru.get(res).unwrap().clone()`). The `getD` default
mirrors the `unwrap()` on an entry that is always present after the
conditional `put`. -/
def init.get_regex (E : RegexEngine) (l : Cache) (res : String) : RegexResult × Cache :=
  let g2 := (init.get_regex_cache E l res).get res
  (g2.1.getD (Except.error "unreachable"), g2.2)

/-- Model of `init::is_match`:
`get_regex(res).map(|re| re.is_match(s)).unwrap_or(false)`. -/
def init.is_match (E : RegexEngine) (l : Cache) (s : Bytes) (res : String) : Bool × Cache :=
  match init.get_regex E l res with
  | (Except.ok re, l2) => (re.is_match s, l2)
  | (Except.error _, l2) => (false, l2)

/-- A UTF-8 continuation byte: `0x80 ..= 0xBF`. -/
def contB (b : Nat) : Bool := 0x80 ≤ b && b ≤ 0xBF

/-- UTF-8 validity of a byte sequence, following the table used by Rust
`std::str::from_utf8` (shortest-form encodings only, no surrogates,
max `U+10FFFF`). -/
def validUtf8 : Bytes → Bool
  | [] => true
  | b :: rest =>
    if b ≤ 0x7F then validUtf8 rest
    else
      match rest with
      | [] => false
      | b1 :: r1 =>
        if 0xC2 ≤ b && b ≤ 0xDF then contB b1 && validUtf8 r1
        else
          match r1 with
          | [] => false
          | b2 :: r2 =>
            if b = 0xE0 then (0xA0 ≤ b1 && b1 ≤ 0xBF) && contB b2 && validUtf8 r2
            else if (0xE1 ≤ b && b ≤ 0xEC) || b = 0xEE || b = 0xEF then
              contB b1 && contB b2 && validUtf8 r2
            else if b = 0xED then (0x80 ≤ b1 && b1 ≤ 0x9F) && contB b2 && validUtf8 r2
            else
              match r2 with
              | [] => false
              | b3 :: r3 =>
                if b = 0xF0 then
                  (0x90 ≤ b1 && b1 ≤ 0xBF) && contB b2 && contB b3 && validUtf8 r3
                else if 0xF1 ≤ b && b ≤ 0xF3 then
                  contB b1 && contB b2 && contB b3 && validUtf8 r3
                else if b = 0xF4 then
                  (0x80 ≤ b1 && b1 ≤ 0x8F) && contB b2 && contB b3 && validUtf8 r3
                else false

/-- Model of `std::str::from_utf8` applied to the replacement result in
`init::replace`: the byte sequence is accepted iff it is valid UTF-8. -/
def utf8Result (b : Bytes) : Except String Bytes :=
  if validUtf8 b then Except.ok b else Except.error "invalid utf-8 sequence"

/-- Model of `init::replace`: propagates a compile failure with `?`, otherwise
runs `replacen` with the clamped limit on the raw bytes and re-validates the
result as UTF-8 (`from_utf8(..).map_err(..)`). -/
def init.replace (E : RegexEngine) (l : Cache) (haystack : Bytes) (res : String)
    (sub : Bytes) (limit : Int) : Except String Bytes × Cache :=
  match init.get_regex E l res with
  | (Except.error e, l2) => (Except.error e, l2)
  | (Except.ok re, l2) =>
      (utf8Result (re.replacen haystack (clamp_i64_to_usize limit) sub), l2)

/-- Model of the per-task `Captures` context stored in `PRIV_TASK`: the capture
set, plus (for request-body captures) the owned coalesced body buffer. The
`slice` field of the Rust struct is the raw-pointer view of `text` and carries
no extra information, so it is not modelled. -/
structure Captures where
  caps : CapturesVal
  text : Option Bytes
deriving DecidableEq

/-- Model of `init::capture`: compile failure or no match returns `false`
leaving the per-task context untouched; a match replaces the context
wholesale. -/
def init.capture (E : RegexEngine) (l : Cache) (vp : Option Captures) (s : Bytes)
    (res : String) : Bool × Option Captures × Cache :=
  match init.get_regex E l res with
  | (Except.error _, l2) => (false, vp, l2)
  | (Except.ok re, l2) =>
      match re.captures s with
      | none => (false, vp, l2)
      | some caps => (true, some { caps := caps, text := none }, l2)

/-- The fold in `capture_req_body` that coalesces the cached body chunks into
one contiguous buffer. -/
def coalesce (chunks : List Bytes) : Bytes :=
  chunks.foldl (fun v b => v ++ b) []

/-- Model of `init::capture_req_body`: compile failure returns `Ok(false)`
first; only then is the pre-buffered request body consulted (`none` models a
body that was never cached, propagated as an error by `?`); the chunks are
coalesced into one owned buffer, which on a successful match moves into the
stored context. -/
def init.capture_req_body (E : RegexEngine) (l : Cache) (vp : Option Captures)
    (cachedBody : Option (List Bytes)) (res : String) :
    Except String (Bool × Option Captures) × Cache :=
  match init.get_regex E l res with
  | (Except.error _, l2) => (Except.ok (false, vp), l2)
  | (Except.ok re, l2) =>
      match cachedBody with
      | none => (Except.error "Request body has not been cached", l2)
      | some chunks =>
          let body := coalesce chunks
          match re.captures body with
          | none => (Except.ok (false, vp), l2)
          | some caps => (Except.ok (true, some { caps := caps, text := some body }), l2)

/-- Model of `init::group`: `vp.and_then(|c| c.caps.get(clamp_i64_to_usize(n))).map(..)`. -/
def init.group (vp : Option Captures) (n : Int) : Option Bytes :=
  vp.bind fun c => (c.caps.groups.get? (clamp_i64_to_usize n)).join

/-- Model of `init::named_group`: `vp.and_then(|c| c.caps.name(name)).map(..)`. -/
def init.named_group (vp : Option Captures) (name : String) : Option Bytes :=
  vp.bind fun c => (c.caps.names.lookup name).join

/-- The two body-rewrite directions of the vmod. -/
inductive Direction
  | Fetch
  | Deliver
deriving DecidableEq

/-- One registered rewrite step: the `(Direction, Regex, String, usize)` tuple
pushed by `init::replace_body`. -/
structure RewriteStep where
  dir : Direction
  re : CompiledRegex
  sub : Bytes
  limit : Nat

/-- The `Vxp` filter state: registered steps, the accumulation buffer, and the
pull-mode cursor (`None` while still ingesting). -/
structure Vxp where
  steps : List RewriteStep
  body : Bytes
  sent : Option Nat

/-- The loop body shared by `Vxp::push` and `Vxp::pull`: fold every step whose
direction matches over the accumulated body, each output feeding the next
step. The `Cow::Borrowed` shortcut in the Rust code skips a step whose
replacement changed nothing, which leaves the bytes identical, so it needs no
separate case here. -/
def applySteps (dir : Direction) : List RewriteStep → Bytes → Bytes
  | [], b => b
  | st :: rest, b =>
      applySteps dir rest (if st.dir = dir then st.re.replacen b st.limit st.sub else b)

/-- The actions a delivery push can carry; only `end_` (VDP_END) matters to the
state machine. -/
inductive VdpAction
  | null
  | flush
  | end_
deriving DecidableEq

/-- Model of `Vxp::push` (delivery side): append the chunk to the buffer; on a
non-terminal action emit nothing downstream; on `End`, transform the full
buffer with the Deliver-direction steps and emit it in one terminal push. -/
def Vxp.push (v : Vxp) (act : VdpAction) (buf : Bytes) : Vxp × Option Bytes :=
  let v2 : Vxp := { v with body := v.body ++ buf }
  if act = VdpAction.end_ then
    (v2, some (applySteps Direction.Deliver v2.steps v2.body))
  else
    (v2, none)

/-- What one upstream `ctx.pull` can hand back in fetch mode. -/
inductive UpChunk
  | ok (b : Bytes)
  | last (b : Bytes)
  | err

/-- The `PullResult` returned to the caller of `Vxp::pull`. -/
inductive PullResult
  | Err
  | Ok (sz : Nat)
  | End (sz : Nat)
deriving DecidableEq

/-- The drain phase at the end of `Vxp::pull`: copy at most `bufLen` bytes of
the transformed body out to the caller, advance the cursor, and report
`End` exactly when the cursor reaches the end of the body. -/
def Vxp.drain (v : Vxp) (bufLen out : Nat) : PullResult × Bytes × Vxp :=
  let len := min bufLen (v.body.length - out)
  let chunk := (v.body.drop out).take len
  let v2 : Vxp := { v with sent := some (out + len) }
  (if out + len = v.body.length then PullResult.End len else PullResult.Ok len, chunk, v2)

/-- Model of `Vxp::pull` (fetch side): while the cursor is unset, pull from
upstream (modelled as the list `up` of chunks; an exhausted list, like an
upstream failure, is an error), accumulating chunks into the buffer; on the
terminal chunk transform the buffer with the Fetch-direction steps and set the
cursor; then drain. The returned triple is (result, bytes written to the
caller buffer, new state). -/
def Vxp.pull (v : Vxp) (up : List UpChunk) (bufLen : Nat) : PullResult × Bytes × Vxp :=
  match v.sent with
  | some out => v.drain bufLen out
  | none =>
    match up with
    | [] => (PullResult.Err, [], v)
    | UpChunk.err :: _ => (PullResult.Err, [], v)
    | UpChunk.ok b :: rest => Vxp.pull { v with body := v.body ++ b } rest bufLen
    | UpChunk.last b :: rest =>
        Vxp.pull
          { v with body := applySteps Direction.Fetch v.steps (v.body ++ b), sent := some 0 }
          rest bufLen

/-- Leftmost non-overlapping occurrences of a literal needle, scanning from
position `i` with enough fuel to cover the whole haystack. An empty needle
matches at every position, as the empty regex does. -/
def literalMatchesGo (needle hay : Bytes) : Nat → Nat → List (Nat × Nat)
  | _, 0 => []
  | i, fuel + 1 =>
    if hay.length < i then []
    else if needle.isPrefixOf (hay.drop i) then
      (i, needle.length) :: literalMatchesGo needle hay (i + max 1 needle.length) fuel
    else literalMatchesGo needle hay (i + 1) fuel

/-- All leftmost non-overlapping occurrences of a literal needle. -/
def literalMatches (needle hay : Bytes) : List (Nat × Nat) :=
  literalMatchesGo needle hay 0 (hay.length + 1)

/-- The capture set of the first literal occurrence: one group, the whole
match, no names. -/
def literalCaptures (needle hay : Bytes) : Option CapturesVal :=
  match literalMatches needle hay with
  | [] => none
  | (s, l) :: _ => some { groups := [some ((hay.drop s).take l)], names := [] }

/-- Read a pattern string as a literal byte needle, one byte per scalar value
below 256 — the reading a real pattern such as `(?-u)\xC3` gives the byte
`0xC3`. -/
def literalNeedle (res : String) : Bytes :=
  res.data.map fun c => c.toNat % 256

/-- A concrete instance of the black-box engine, used for witnesses and
counterexamples: a pattern is a literal byte needle, and any pattern
containing `(` is rejected as a parse error (in the real engine a lone `(` is
an unclosed group). -/
def literalEngine : RegexEngine where
  compile res :=
    if res.data.contains '(' then Except.error "regex parse error: unclosed group"
    else
      Except.ok
        { findMatches := literalMatches (literalNeedle res)
          captures := literalCaptures (literalNeedle res) }

/-- Bytes of an ASCII string, for readable concrete inputs. -/
def asciiBytes (s : String) : Bytes :=
  s.data.map Char.toNat

/-- The matcher the literal engine produces for the pattern `foo`. -/
def fooRegex : CompiledRegex :=
  { findMatches := literalMatches (literalNeedle "foo")
    captures := literalCaptures (literalNeedle "foo") }

/-- Cache consistency: every stored entry is the compile outcome of its key.
This is the invariant that makes the cache transparent: `get_regex` always
hands back exactly what the engine says about the pattern. -/
def CacheConsistent (E : RegexEngine) (l : Cache) : Prop :=
  ∀ p ∈ l.entries, p.2 = E.compile p.1

lemma cacheConsistent_new (E : RegexEngine) (n : Int) : CacheConsistent E (init.new n) := by
  intro p hp
  simp [init.new] at hp

lemma Lru.get_snd_cap {α : Type} (l : Lru α) (k : String) : ((l.get k).2).cap = l.cap := by
  unfold Lru.get
  cases h : l.entries.find? (fun p => p.1 == k) <;> simp

lemma Lru.put_cap {α : Type} (l : Lru α) (k : String) (v : α) : (l.put k v).cap = l.cap := rfl

lemma Lru.mem_get_snd {α : Type} {l : Lru α} {k : String} {x : String × α}
    (hx : x ∈ ((l.get k).2).entries) : x ∈ l.entries := by
  unfold Lru.get at hx
  cases h : l.entries.find? (fun p => p.1 == k) with
  | none => rw [h] at hx; exact hx
  | some p =>
    rw [h] at hx
    rcases List.mem_cons.mp hx with rfl | hx
    · exact List.mem_of_find?_eq_some h
    · exact List.filter_subset' _ hx

lemma Lru.mem_put {α : Type} {l : Lru α} {k : String} {v : α} {x : String × α}
    (hx : x ∈ (l.put k v).entries) : x = (k, v) ∨ x ∈ l.entries := by
  simp only [Lru.put] at hx
  rcases List.mem_cons.mp hx with rfl | hx
  · exact Or.inl rfl
  · exact Or.inr (List.filter_subset' _ (List.take_subset _ _ hx))

lemma length_filter_lt_of_mem {α : Type} {p : α → Bool} {l : List α} {a : α}
    (ha : a ∈ l) (hpa : p a = false) : (l.filter p).length < l.length := by
  induction l with
  | nil => cases ha
  | cons b t ih =>
    rcases List.mem_cons.mp ha with rfl | ha
    · rw [List.filter_cons, hpa]
      exact Nat.lt_succ_of_le (List.length_filter_le p t)
    · by_cases hb : p b
      · rw [List.filter_cons, if_pos hb]
        exact Nat.succ_lt_succ (ih ha)
      · rw [List.filter_cons, if_neg hb]
        exact Nat.lt_succ_of_lt (ih ha)

lemma Lru.get_length_le {α : Type} (l : Lru α) (k : String) :
    ((l.get k).2).entries.length ≤ l.entries.length := by
  unfold Lru.get
  cases h : l.entries.find? (fun p => p.1 == k) with
  | none => simp
  | some p =>
    have hm := List.mem_of_find?_eq_some h
    have hp := List.find?_some h
    have hlt : (l.entries.filter (fun q => !(q.1 == k))).length < l.entries.length :=
      length_filter_lt_of_mem hm (by simp [hp])
    simpa using hlt

lemma Lru.put_length_le {α : Type} (l : Lru α) (k : String) (v : α) (hcap : 1 ≤ l.cap) :
    ((l.put k v).entries).length ≤ l.cap := by
  simp only [Lru.put, List.length_cons, List.length_take]
  have h1 := Nat.min_le_left (l.cap - 1)
      ((l.entries.filter (fun q => !(q.1 == k))).length)
  omega

lemma Lru.get_head {α : Type} {l : Lru α} {k : String} {p : String × α}
    (h : l.entries.find? (fun q => q.1 == k) = some p) :
    ((l.get k).2).entries.head? = some p := by
  unfold Lru.get
  rw [h]
  rfl

/-- The cache stage of `get_regex` keeps consistency: the only new entry it can
add is the freshly compiled outcome keyed by its own pattern. -/
lemma init.get_regex_cache_consistent {E : RegexEngine} {l : Cache} (res : String)
    (h : CacheConsistent E l) : CacheConsistent E (init.get_regex_cache E l res) := by
  intro x hx
  unfold init.get_regex_cache at hx
  cases h1 : (l.get res).1 with
  | none =>
    rw [h1] at hx
    rcases Lru.mem_put hx with rfl | hx2
    · rfl
    · exact h x (Lru.mem_get_snd hx2)
  | some v =>
    rw [h1] at hx
    exact h x (Lru.mem_get_snd hx)

/-- After the cache stage of `get_regex`, the pattern is always present, and
the final lookup finds it. -/
lemma init.get_regex_cache_find (E : RegexEngine) (l : Cache) (res : String) :
    ∃ p, (init.get_regex_cache E l res).entries.find? (fun q => q.1 == res) = some p
      ∧ p.1 = res := by
  unfold init.get_regex_cache
  cases h1 : l.entries.find? (fun p => p.1 == res) with
  | some p =>
    have hbeq := List.find?_some h1
    refine ⟨p, ?_, eq_of_beq hbeq⟩
    have hget : (l.get res).1 = some p.2 ∧ (l.get res).2.entries
        = p :: l.entries.filter (fun q => !(q.1 == res)) := by
      unfold Lru.get
      rw [h1]
      exact ⟨rfl, rfl⟩
    rw [hget.1, hget.2]
    exact List.find?_cons_of_pos _ hbeq
  | none =>
    have hget : (l.get res).1 = none ∧ (l.get res).2 = l := by
      unfold Lru.get
      rw [h1]
      exact ⟨rfl, rfl⟩
    refine ⟨(res, E.compile res), ?_, rfl⟩
    rw [hget.1, hget.2]
    exact List.find?_cons_of_pos _ (beq_self_eq_true res)

/-- Under consistency, `get_regex` returns exactly the engine outcome for the
pattern, whether it was cached or freshly compiled. -/
lemma init.get_regex_val {E : RegexEngine} {l : Cache} (res : String)
    (h : CacheConsistent E l) : (init.get_regex E l res).1 = E.compile res := by
  obtain ⟨p, hf, hk⟩ := init.get_regex_cache_find E l res
  have hval : p.2 = E.compile p.1 :=
    init.get_regex_cache_consistent res h p (List.mem_of_find?_eq_some hf)
  show (((init.get_regex_cache E l res).get res).1).getD (Except.error "unreachable")
      = E.compile res
  unfold Lru.get
  rw [hf]
  show (some p.2).getD (Except.error "unreachable") = E.compile res
  rw [Option.getD_some, hval, hk]

/-- `get_regex` preserves cache consistency. -/
lemma init.get_regex_consistent {E : RegexEngine} {l : Cache} (res : String)
    (h : CacheConsistent E l) : CacheConsistent E (init.get_regex E l res).2 := by
  intro x hx
  have hx2 : x ∈ (init.get_regex_cache E l res).entries :=
    Lru.mem_get_snd (show x ∈ (((init.get_regex_cache E l res).get res).2).entries from hx)
  exact init.get_regex_cache_consistent res h x hx2

/-- After `get_regex`, the looked-up pattern sits at the most-recently-used
position (a hit is promoted; a miss is inserted at the front). -/
lemma init.get_regex_mru (E : RegexEngine) (l : Cache) (res : String) :
    ((init.get_regex E l res).2).entries.head?.map Prod.fst = some res := by
  obtain ⟨p, hf, hk⟩ := init.get_regex_cache_find E l res
  show (((init.get_regex_cache E l res).get res).2).entries.head?.map Prod.fst = some res
  rw [Lru.get_head hf]
  simp [hk]

/-- The cache stage never grows the cache beyond its capacity. -/
lemma init.get_regex_cache_length {E : RegexEngine} {l : Cache} (res : String)
    (hcap : 1 ≤ l.cap) (hlen : l.entries.length ≤ l.cap) :
    (init.get_regex_cache E l res).entries.length ≤ l.cap := by
  unfold init.get_regex_cache
  cases h1 : (l.get res).1 with
  | none =>
    have hput := Lru.put_length_le ((l.get res).2) res (E.compile res)
      (by rw [Lru.get_snd_cap]; exact hcap)
    rw [Lru.get_snd_cap] at hput
    exact hput
  | some v =>
    exact le_trans (Lru.get_length_le l res) hlen

/-- `get_regex` keeps the cache within its configured capacity. -/
lemma init.get_regex_length {E : RegexEngine} {l : Cache} (res : String)
    (hcap : 1 ≤ l.cap) (hlen : l.entries.length ≤ l.cap) :
    ((init.get_regex E l res).2).entries.length ≤ l.cap := by
  show (((init.get_regex_cache E l res).get res).2).entries.length ≤ l.cap
  exact le_trans (Lru.get_length_le _ res) (init.get_regex_cache_length res hcap hlen)

/-- Under consistency and a successful compile, `replace` computes the
byte-level substitution with the clamped limit and passes it through the
UTF-8 gate. -/
lemma init.replace_val {E : RegexEngine} {l : Cache} (hay sub : Bytes) {res : String}
    {re : CompiledRegex} (k : Int)
    (hcons : CacheConsistent E l) (hcomp : E.compile res = Except.ok re) :
    (init.replace E l hay res sub k).1
      = utf8Result (re.replacen hay (clamp_i64_to_usize k) sub) := by
  have hpair : init.get_regex E l res = (Except.ok re, (init.get_regex E l res).2) :=
    Prod.ext ((init.get_regex_val res hcons).trans hcomp) rfl
  unfold init.replace
  rw [hpair]

/-- Same reduction for an erroring compile: `replace` propagates the error. -/
lemma init.replace_err {E : RegexEngine} {l : Cache} (hay sub : Bytes) {res e : String}
    (k : Int) (hcons : CacheConsistent E l) (hcomp : E.compile res = Except.error e) :
    (init.replace E l hay res sub k).1 = Except.error e := by
  have hpair : init.get_regex E l res = (Except.error e, (init.get_regex E l res).2) :=
    Prod.ext ((init.get_regex_val res hcons).trans hcomp) rfl
  unfold init.replace
  rw [hpair]

/-- C1: for every pattern that fails to compile, `is_match` does return false
for every input, as claimed; `replace`, however, does not return the input
unchanged — it propagates the compile failure as an error
(`self.get_regex(res)?`), so the failure is surfaced to the caller. This
contradicts the module documentation in lib.rs, which promises that replace
is a noop on an invalid regex, so the replace half of the claim exposes a
divergence between the code and its own stated contract. -/
theorem replace_surfaces_compile_error (E : RegexEngine) (l : Cache)
    (s hay sub : Bytes) (res e : String) (k : Int)
    (hcons : CacheConsistent E l) (hcomp : E.compile res = Except.error e) :
    (init.is_match E l s res).1 = false
    ∧ (init.replace E l hay res sub k).1 = Except.error e
    ∧ (init.replace E l hay res sub k).1 ≠ Except.ok hay := by
  have hpair : init.get_regex E l res = (Except.error e, (init.get_regex E l res).2) :=
    Prod.ext ((init.get_regex_val res hcons).trans hcomp) rfl
  have hrep := init.replace_err hay sub k hcons hcomp
  refine ⟨?_, hrep, ?_⟩
  · unfold init.is_match
    rw [hpair]
  · rw [hrep]
    intro hc
    cases hc

/-- C1 witness: the invalid pattern `(` with the concrete engine. -/
theorem replace_surfaces_compile_error_witness :
    CacheConsistent literalEngine (init.new 1000)
    ∧ literalEngine.compile "(" = Except.error "regex parse error: unclosed group"
    ∧ ((init.is_match literalEngine (init.new 1000) (asciiBytes "abc") "(").1 = false
       ∧ (init.replace literalEngine (init.new 1000) (asciiBytes "abc") "("
            (asciiBytes "x") 0).1 = Except.error "regex parse error: unclosed group"
       ∧ (init.replace literalEngine (init.new 1000) (asciiBytes "abc") "("
            (asciiBytes "x") 0).1 ≠ Except.ok (asciiBytes "abc")) :=
  ⟨cacheConsistent_new literalEngine 1000, rfl,
    replace_surfaces_compile_error literalEngine (init.new 1000) (asciiBytes "abc")
      (asciiBytes "abc") (asciiBytes "x") "(" "regex parse error: unclosed group" 0
      (cacheConsistent_new literalEngine 1000) rfl⟩

/-- C5 (amended): `replace` matches and substitutes at the byte level, but its
inputs are UTF-8 strings and its result is re-validated by `from_utf8`: with
a compiling pattern the call succeeds exactly when the byte-level result is
valid UTF-8, and fails with an error otherwise — it does not succeed on
arbitrary binary data. -/
theorem replace_utf8_gate (E : RegexEngine) (l : Cache) (hay sub : Bytes)
    (res : String) (re : CompiledRegex) (k : Int)
    (hcons : CacheConsistent E l) (hcomp : E.compile res = Except.ok re) :
    (init.replace E l hay res sub k).1
        = utf8Result (re.replacen hay (clamp_i64_to_usize k) sub)
    ∧ (validUtf8 (re.replacen hay (clamp_i64_to_usize k) sub) = true →
        (init.replace E l hay res sub k).1
          = Except.ok (re.replacen hay (clamp_i64_to_usize k) sub))
    ∧ (validUtf8 (re.replacen hay (clamp_i64_to_usize k) sub) = false →
        (init.replace E l hay res sub k).1 = Except.error "invalid utf-8 sequence") := by
  have hval := init.replace_val hay sub k hcons hcomp
  refine ⟨hval, ?_, ?_⟩
  · intro hv
    rw [hval]
    unfold utf8Result
    rw [hv]
    rfl
  · intro hv
    rw [hval]
    unfold utf8Result
    rw [hv]
    rfl

/-- C5 witness: a fully valid replacement. -/
theorem replace_utf8_gate_witness :
    CacheConsistent literalEngine (init.new 1000)
    ∧ literalEngine.compile "foo" = Except.ok fooRegex
    ∧ ((init.replace literalEngine (init.new 1000) (asciiBytes "foofoofoo") "foo"
          (asciiBytes "bar") 0).1
        = utf8Result (fooRegex.replacen (asciiBytes "foofoofoo")
            (clamp_i64_to_usize 0) (asciiBytes "bar"))
       ∧ (validUtf8 (fooRegex.replacen (asciiBytes "foofoofoo")
            (clamp_i64_to_usize 0) (asciiBytes "bar")) = true →
          (init.replace literalEngine (init.new 1000) (asciiBytes "foofoofoo") "foo"
            (asciiBytes "bar") 0).1
            = Except.ok (fooRegex.replacen (asciiBytes "foofoofoo")
                (clamp_i64_to_usize 0) (asciiBytes "bar")))
       ∧ (validUtf8 (fooRegex.replacen (asciiBytes "foofoofoo")
            (clamp_i64_to_usize 0) (asciiBytes "bar")) = false →
          (init.replace literalEngine (init.new 1000) (asciiBytes "foofoofoo") "foo"
            (asciiBytes "bar") 0).1 = Except.error "invalid utf-8 sequence")) :=
  ⟨cacheConsistent_new literalEngine 1000, rfl,
    replace_utf8_gate literalEngine (init.new 1000) (asciiBytes "foofoofoo")
      (asciiBytes "bar") "foo" fooRegex 0 (cacheConsistent_new literalEngine 1000) rfl⟩

/-- C5 counterexample: the pattern `Ã` (the single byte 0xC3 under the literal
engine, realizable in the real engine as `(?-u)\xC3`) compiles; the haystack
`[0xC3, 0xA9]` (the UTF-8 bytes of é) and the empty replacement are
well-formed; yet `replace` fails with a UTF-8 error instead of succeeding,
because the byte-level result `[0xA9]` is not valid UTF-8. -/
theorem replace_arbitrary_binary_counterexample :
    (literalEngine.compile "Ã").isOk = true
    ∧ (init.replace literalEngine (init.new 1000) [195, 169] "Ã" [] 0).1
        = Except.error "invalid utf-8 sequence" :=
  ⟨rfl, rfl⟩

/-- C6: with a compiling pattern, limit 0 replaces every match, a positive
limit k replaces only the first k matches left to right, and a negative limit
is clamped to 0 and so behaves exactly like the replace-all default. -/
theorem replace_limit_semantics (E : RegexEngine) (l : Cache) (hay sub : Bytes)
    (res : String) (re : CompiledRegex) (kp kn : Int)
    (hcons : CacheConsistent E l) (hcomp : E.compile res = Except.ok re)
    (hkp : 0 < kp) (hkn : kn < 0) :
    (init.replace E l hay res sub 0).1 = utf8Result (splice hay sub 0 (re.findMatches hay))
    ∧ (init.replace E l hay res sub kp).1
        = utf8Result (splice hay sub 0 ((re.findMatches hay).take kp.toNat))
    ∧ init.replace E l hay res sub kn = init.replace E l hay res sub 0 := by
  have h0 := init.replace_val hay sub 0 hcons hcomp
  have hp := init.replace_val hay sub kp hcons hcomp
  have hclamp0 : clamp_i64_to_usize 0 = 0 := rfl
  have hclampp : clamp_i64_to_usize kp = kp.toNat := by
    unfold clamp_i64_to_usize
    rw [if_neg (by omega)]
  have hclampn : clamp_i64_to_usize kn = 0 := by
    unfold clamp_i64_to_usize
    rw [if_pos hkn]
  refine ⟨?_, ?_, ?_⟩
  · rw [h0, hclamp0]
    unfold CompiledRegex.replacen
    rw [if_pos rfl]
  · rw [hp, hclampp]
    unfold CompiledRegex.replacen
    rw [if_neg (by omega)]
  · unfold init.replace
    rw [hclampn, hclamp0]

/-- C6 witness: the scenario from the specification, body `foofoofoo`, pattern
`foo`, replacement `bar`, limits 0, 1 and -3. -/
theorem replace_limit_semantics_witness :
    CacheConsistent literalEngine (init.new 1000)
    ∧ literalEngine.compile "foo" = Except.ok fooRegex
    ∧ 0 < (1 : Int) ∧ (-3 : Int) < 0
    ∧ ((init.replace literalEngine (init.new 1000) (asciiBytes "foofoofoo") "foo"
          (asciiBytes "bar") 0).1
        = utf8Result (splice (asciiBytes "foofoofoo") (asciiBytes "bar") 0
            (fooRegex.findMatches (asciiBytes "foofoofoo")))
       ∧ (init.replace literalEngine (init.new 1000) (asciiBytes "foofoofoo") "foo"
            (asciiBytes "bar") 1).1
          = utf8Result (splice (asciiBytes "foofoofoo") (asciiBytes "bar") 0
              ((fooRegex.findMatches (asciiBytes "foofoofoo")).take (Int.toNat 1)))
       ∧ init.replace literalEngine (init.new 1000) (asciiBytes "foofoofoo") "foo"
            (asciiBytes "bar") (-3)
          = init.replace literalEngine (init.new 1000) (asciiBytes "foofoofoo") "foo"
            (asciiBytes "bar") 0)
    ∧ (init.replace literalEngine (init.new 1000) (asciiBytes "foofoofoo") "foo"
        (asciiBytes "bar") 0).1 = Except.ok (asciiBytes "barbarbar")
    ∧ (init.replace literalEngine (init.new 1000) (asciiBytes "foofoofoo") "foo"
        (asciiBytes "bar") 1).1 = Except.ok (asciiBytes "barfoofoo") :=
  ⟨cacheConsistent_new literalEngine 1000, rfl, by omega, by omega,
    replace_limit_semantics literalEngine (init.new 1000) (asciiBytes "foofoofoo")
      (asciiBytes "bar") "foo" fooRegex 1 (-3)
      (cacheConsistent_new literalEngine 1000) rfl (by omega) (by omega),
    rfl, rfl⟩

/-- The capacity-2 scenario: the empty store. -/
def scenC0 : Cache := init.new 2

/-- Scenario store after compiling `a`. -/
def scenC1 : Cache := (init.get_regex literalEngine scenC0 "a").2

/-- Scenario store after compiling `a` then `b`. -/
def scenC2 : Cache := (init.get_regex literalEngine scenC1 "b").2

/-- Scenario store after compiling `a`, `b`, `c`. -/
def scenC3 : Cache := (init.get_regex literalEngine scenC2 "c").2

/-- Scenario store after compiling `a`, `b`, `c` and looking `a` up again. -/
def scenC4 : Cache := (init.get_regex literalEngine scenC3 "a").2

/-- C2: the pattern cache honours its configured capacity (default 1000,
non-positive sizes clamped up to 1), never holds more entries than that
capacity, promotes every looked-up pattern to most-recently-used, and hands
back exactly the engine outcome for the pattern — compile failures included,
which occupy a slot like successes (last conjunct). With capacity 2,
compiling a, b, c leaves {c, b} and evicts a; a subsequent lookup of a misses
(hence recompiles) and evicts b, leaving {a, c}. -/
theorem cache_lru_contract (E : RegexEngine) (l : Cache) (npos nneg : Int) (k : String)
    (hcons : CacheConsistent E l) (hcap : 1 ≤ l.cap) (hlen : l.entries.length ≤ l.cap)
    (hpos : 0 < npos) (hneg : nneg ≤ 0) :
    (init.new 1000).cap = 1000
    ∧ (init.new npos).cap = npos.toNat
    ∧ (init.new nneg).cap = 1
    ∧ ((init.get_regex E l k).2).entries.length ≤ l.cap
    ∧ ((init.get_regex E l k).2).entries.head?.map Prod.fst = some k
    ∧ (init.get_regex E l k).1 = E.compile k
    ∧ (scenC3.keys = ["c", "b"] ∧ "a" ∉ scenC3.keys)
    ∧ ((scenC3.entries.find? (fun p => p.1 == "a")).isNone = true
        ∧ scenC4.keys = ["a", "c"] ∧ "b" ∉ scenC4.keys
        ∧ (init.get_regex literalEngine scenC3 "a").1 = literalEngine.compile "a")
    ∧ (((init.get_regex literalEngine (init.new 2) "(").2).keys = ["("]
        ∧ (init.get_regex literalEngine (init.new 2) "(").1
            = Except.error "regex parse error: unclosed group") := by
  refine ⟨rfl, ?_, ?_, init.get_regex_length k hcap hlen, init.get_regex_mru E l k,
    init.get_regex_val k hcons, ⟨by decide, by decide⟩,
    ⟨by decide, by decide, by decide, rfl⟩, ⟨by decide, rfl⟩⟩
  · show (if clamp_i64_to_usize npos = 0 then 1 else clamp_i64_to_usize npos) = npos.toNat
    have h1 : clamp_i64_to_usize npos = npos.toNat := by
      unfold clamp_i64_to_usize
      rw [if_neg (by omega)]
    rw [h1, if_neg (by omega)]
  · show (if clamp_i64_to_usize nneg = 0 then 1 else clamp_i64_to_usize nneg) = 1
    have hc : clamp_i64_to_usize nneg = 0 := by
      unfold clamp_i64_to_usize
      split
      · rfl
      · omega
    rw [hc, if_pos rfl]

/-- C2 witness: concrete store of capacity 3, sizes 7 and -2, key `k`. -/
theorem cache_lru_contract_witness :
    CacheConsistent literalEngine (init.new 3)
    ∧ 1 ≤ (init.new 3).cap
    ∧ (init.new 3).entries.length ≤ (init.new 3).cap
    ∧ 0 < (7 : Int) ∧ (-2 : Int) ≤ 0
    ∧ ((init.new 1000).cap = 1000
       ∧ (init.new 7).cap = Int.toNat 7
       ∧ (init.new (-2)).cap = 1
       ∧ ((init.get_regex literalEngine (init.new 3) "k").2).entries.length
           ≤ (init.new 3).cap
       ∧ ((init.get_regex literalEngine (init.new 3) "k").2).entries.head?.map Prod.fst
           = some "k"
       ∧ (init.get_regex literalEngine (init.new 3) "k").1 = literalEngine.compile "k"
       ∧ (scenC3.keys = ["c", "b"] ∧ "a" ∉ scenC3.keys)
       ∧ ((scenC3.entries.find? (fun p => p.1 == "a")).isNone = true
           ∧ scenC4.keys = ["a", "c"] ∧ "b" ∉ scenC4.keys
           ∧ (init.get_regex literalEngine scenC3 "a").1 = literalEngine.compile "a")
       ∧ (((init.get_regex literalEngine (init.new 2) "(").2).keys = ["("]
           ∧ (init.get_regex literalEngine (init.new 2) "(").1
               = Except.error "regex parse error: unclosed group")) :=
  ⟨cacheConsistent_new literalEngine 3, by decide, by decide, by omega, by omega,
    cache_lru_contract literalEngine (init.new 3) 7 (-2) "k"
      (cacheConsistent_new literalEngine 3) (by decide) (by decide)
      (by omega) (by omega)⟩

/-- A Deliver-direction step rewriting `foo` to `bar`, unlimited. -/
def stepDeliverFooBar : RewriteStep :=
  { dir := Direction.Deliver, re := fooRegex, sub := asciiBytes "bar", limit := 0 }

/-- A Fetch-direction step rewriting `foo` to `qux`, unlimited. -/
def stepFetchFooQux : RewriteStep :=
  { dir := Direction.Fetch, re := fooRegex, sub := asciiBytes "qux", limit := 0 }

lemma applySteps_filter_eq (dir : Direction) (steps : List RewriteStep) (b : Bytes) :
    applySteps dir steps b
      = applySteps dir (steps.filter (fun s => s.dir == dir)) b := by
  induction steps generalizing b with
  | nil => rfl
  | cons st rest ih =>
    by_cases h : st.dir = dir
    · rw [List.filter_cons, if_pos (by simp [h])]
      exact ih (if st.dir = dir then st.re.replacen b st.limit st.sub else b)
    · rw [List.filter_cons, if_neg (by simp [h])]
      simp only [applySteps, if_neg h]
      exact ih b

lemma applySteps_append (dir : Direction) (s1 s2 : List RewriteStep) (b : Bytes) :
    applySteps dir (s1 ++ s2) b = applySteps dir s2 (applySteps dir s1 b) := by
  induction s1 generalizing b with
  | nil => rfl
  | cons st rest ih =>
    simp only [List.cons_append, applySteps]
    exact ih _

/-- Unfolding equation of `Vxp.pull` in a draining state. -/
lemma Vxp.pull_sent_eq (st : List RewriteStep) (bd : Bytes) (out : Nat)
    (up : List UpChunk) (bufLen : Nat) :
    Vxp.pull ⟨st, bd, some out⟩ up bufLen = Vxp.drain ⟨st, bd, some out⟩ bufLen out := by
  cases up with
  | nil => rfl
  | cons c rest => rfl

/-- Unfolding equation of `Vxp.pull` on an exhausted upstream. -/
lemma Vxp.pull_none_nil (st : List RewriteStep) (bd : Bytes) (bufLen : Nat) :
    Vxp.pull ⟨st, bd, none⟩ [] bufLen = (PullResult.Err, [], ⟨st, bd, none⟩) := rfl

/-- Unfolding equation of `Vxp.pull` on an upstream error. -/
lemma Vxp.pull_none_err (st : List RewriteStep) (bd : Bytes) (rest : List UpChunk)
    (bufLen : Nat) :
    Vxp.pull ⟨st, bd, none⟩ (UpChunk.err :: rest) bufLen
      = (PullResult.Err, [], ⟨st, bd, none⟩) := rfl

/-- Unfolding equation of `Vxp.pull` on a plain upstream chunk. -/
lemma Vxp.pull_none_ok (st : List RewriteStep) (bd b : Bytes) (rest : List UpChunk)
    (bufLen : Nat) :
    Vxp.pull ⟨st, bd, none⟩ (UpChunk.ok b :: rest) bufLen
      = Vxp.pull ⟨st, bd ++ b, none⟩ rest bufLen := rfl

/-- Unfolding equation of `Vxp.pull` on the terminal upstream chunk. -/
lemma Vxp.pull_none_last (st : List RewriteStep) (bd b : Bytes) (rest : List UpChunk)
    (bufLen : Nat) :
    Vxp.pull ⟨st, bd, none⟩ (UpChunk.last b :: rest) bufLen
      = Vxp.pull ⟨st, applySteps Direction.Fetch st (bd ++ b), some 0⟩ rest bufLen := rfl

/-- Ingesting a prefix of plain chunks just accumulates them into the body. -/
lemma Vxp.pull_accum (bufLen : Nat) (rest : List UpChunk) :
    ∀ (chunks : List Bytes) (v : Vxp), v.sent = none →
    Vxp.pull v (chunks.map UpChunk.ok ++ rest) bufLen
      = Vxp.pull { steps := v.steps, body := v.body ++ chunks.flatten, sent := none }
          rest bufLen := by
  intro chunks
  induction chunks with
  | nil =>
    intro v hs
    obtain ⟨st, bd, sn⟩ := v
    cases hs
    simp
  | cons c cs ih =>
    intro v hs
    obtain ⟨st, bd, sn⟩ := v
    cases hs
    have h1 := ih ⟨st, bd ++ c, none⟩ rfl
    have h2 : bd ++ (c :: cs).flatten = bd ++ c ++ cs.flatten := by
      simp [List.append_assoc]
    show Vxp.pull ⟨st, bd ++ c, none⟩ (cs.map UpChunk.ok ++ rest) bufLen
      = Vxp.pull ⟨st, bd ++ (c :: cs).flatten, none⟩ rest bufLen
    rw [h1]
    simp only [h2]

lemma Vxp.drain_chunk_le (v : Vxp) (bufLen out : Nat) :
    (v.drain bufLen out).2.1.length ≤ bufLen := by
  show ((v.body.drop out).take (min bufLen (v.body.length - out))).length ≤ bufLen
  rw [List.length_take]
  exact le_trans (min_le_left _ _) (min_le_left _ _)

/-- Every call of `Vxp::pull` hands back at most `bufLen` bytes, in every
state and against every upstream. -/
lemma Vxp.pull_chunk_le (bufLen : Nat) :
    ∀ (up : List UpChunk) (w : Vxp), (Vxp.pull w up bufLen).2.1.length ≤ bufLen := by
  intro up
  induction up with
  | nil =>
    intro w
    obtain ⟨st, bd, sn⟩ := w
    cases sn with
    | none =>
      rw [Vxp.pull_none_nil]
      simp
    | some out =>
      rw [Vxp.pull_sent_eq]
      exact Vxp.drain_chunk_le _ bufLen out
  | cons c rest ih =>
    intro w
    obtain ⟨st, bd, sn⟩ := w
    cases sn with
    | some out =>
      rw [Vxp.pull_sent_eq]
      exact Vxp.drain_chunk_le _ bufLen out
    | none =>
      cases c with
      | err =>
        rw [Vxp.pull_none_err]
        simp
      | ok b =>
        rw [Vxp.pull_none_ok]
        exact ih _
      | last b =>
        rw [Vxp.pull_none_last]
        exact ih _

/-- C3: when the rewriter transforms its fully accumulated body (a terminal
push on the deliver side, a terminal upstream chunk on the fetch side), it
folds exactly the steps tagged with its own direction over the buffer in
registration order, each output feeding the next step; steps of the other
direction never change the result, and with no step of its direction the
output is the input byte-for-byte, including for the empty body. -/
theorem stream_rewriter_directional (v : Vxp) (buf lc b : Bytes) (chunks : List Bytes)
    (bufLen : Nat) (dir : Direction) (steps : List RewriteStep) (st : RewriteStep)
    (hs : v.sent = none) :
    (Vxp.push v VdpAction.end_ buf).2
        = some (applySteps Direction.Deliver v.steps (v.body ++ buf))
    ∧ (∀ a, a ≠ VdpAction.end_ →
        Vxp.push v a buf = ({ v with body := v.body ++ buf }, none))
    ∧ ((Vxp.pull v (chunks.map UpChunk.ok ++ [UpChunk.last lc]) bufLen).2.2).body
        = applySteps Direction.Fetch v.steps (v.body ++ chunks.flatten ++ lc)
    ∧ applySteps dir steps b = applySteps dir (steps.filter (fun s => s.dir == dir)) b
    ∧ (steps.filter (fun s => s.dir == dir) = [] → applySteps dir steps b = b)
    ∧ applySteps dir (steps ++ [st]) b
        = (if st.dir = dir then st.re.replacen (applySteps dir steps b) st.limit st.sub
           else applySteps dir steps b) := by
  refine ⟨?_, ?_, ?_, applySteps_filter_eq dir steps b, ?_, ?_⟩
  · unfold Vxp.push
    rw [if_pos rfl]
  · intro a ha
    unfold Vxp.push
    rw [if_neg ha]
  · rw [Vxp.pull_accum bufLen [UpChunk.last lc] chunks v hs]
    rfl
  · intro h
    rw [applySteps_filter_eq dir steps b, h]
    rfl
  · rw [applySteps_append]
    rfl

/-- The Vxp state used by the C3 witness: one step per direction, empty body. -/
def vxpTwoSteps : Vxp :=
  { steps := [stepDeliverFooBar, stepFetchFooQux], body := [], sent := none }

/-- C3 witness: two registered steps, one per direction, on the body
`foofoofoo`; extra closed corollaries show the concrete outputs, the
other-direction step having no effect, and the empty no-step pass-through. -/
theorem stream_rewriter_directional_witness :
    vxpTwoSteps.sent = none
    ∧ ((Vxp.push vxpTwoSteps VdpAction.end_ (asciiBytes "foofoofoo")).2
        = some (applySteps Direction.Deliver vxpTwoSteps.steps
            (vxpTwoSteps.body ++ asciiBytes "foofoofoo"))
       ∧ (∀ a, a ≠ VdpAction.end_ →
          Vxp.push vxpTwoSteps a (asciiBytes "foofoofoo")
            = ({ vxpTwoSteps with body := vxpTwoSteps.body ++ asciiBytes "foofoofoo" }, none))
       ∧ ((Vxp.pull vxpTwoSteps
            ([asciiBytes "fo", asciiBytes "o"].map UpChunk.ok
              ++ [UpChunk.last (asciiBytes "foo")]) 4).2.2).body
          = applySteps Direction.Fetch vxpTwoSteps.steps
              (vxpTwoSteps.body ++ [asciiBytes "fo", asciiBytes "o"].flatten ++ asciiBytes "foo")
       ∧ applySteps Direction.Deliver vxpTwoSteps.steps (asciiBytes "foo")
          = applySteps Direction.Deliver
              (vxpTwoSteps.steps.filter (fun s => s.dir == Direction.Deliver))
              (asciiBytes "foo")
       ∧ (vxpTwoSteps.steps.filter (fun s => s.dir == Direction.Deliver) = []
          → applySteps Direction.Deliver vxpTwoSteps.steps (asciiBytes "foo")
              = asciiBytes "foo")
       ∧ applySteps Direction.Deliver (vxpTwoSteps.steps ++ [stepDeliverFooBar])
            (asciiBytes "foo")
          = (if stepDeliverFooBar.dir = Direction.Deliver then
              stepDeliverFooBar.re.replacen
                (applySteps Direction.Deliver vxpTwoSteps.steps (asciiBytes "foo"))
                stepDeliverFooBar.limit stepDeliverFooBar.sub
             else applySteps Direction.Deliver vxpTwoSteps.steps (asciiBytes "foo")))
    ∧ applySteps Direction.Deliver [stepDeliverFooBar, stepFetchFooQux]
        (asciiBytes "foofoofoo") = asciiBytes "barbarbar"
    ∧ applySteps Direction.Deliver [stepFetchFooQux] (asciiBytes "foofoofoo")
        = asciiBytes "foofoofoo"
    ∧ applySteps Direction.Deliver [] ([] : Bytes) = ([] : Bytes) :=
  ⟨rfl,
    stream_rewriter_directional vxpTwoSteps (asciiBytes "foofoofoo") (asciiBytes "foo")
      (asciiBytes "foo") [asciiBytes "fo", asciiBytes "o"] 4 Direction.Deliver
      vxpTwoSteps.steps stepDeliverFooBar rfl,
    rfl, rfl, rfl⟩

/-- C4: in the draining phase (cursor set), one pull call copies out at most
`bufLen` bytes, advances the cursor by exactly the number of bytes returned,
leaves the transformed body untouched, and reports the terminal marker
exactly when the cursor reaches the end of the body — `Ok` is returned
strictly before that. The last conjunct bounds every call, in every state. -/
theorem pull_drain_contract (v : Vxp) (up : List UpChunk) (bufLen out : Nat)
    (hsent : v.sent = some out) (hle : out ≤ v.body.length) :
    (Vxp.pull v up bufLen).2.1.length ≤ bufLen
    ∧ (Vxp.pull v up bufLen).2.2.sent = some (out + (Vxp.pull v up bufLen).2.1.length)
    ∧ (Vxp.pull v up bufLen).2.2.body = v.body
    ∧ ((Vxp.pull v up bufLen).1 = PullResult.End ((Vxp.pull v up bufLen).2.1.length)
        ↔ out + (Vxp.pull v up bufLen).2.1.length = v.body.length)
    ∧ (out + (Vxp.pull v up bufLen).2.1.length < v.body.length →
        (Vxp.pull v up bufLen).1 = PullResult.Ok ((Vxp.pull v up bufLen).2.1.length))
    ∧ (∀ (w : Vxp) (u : List UpChunk), (Vxp.pull w u bufLen).2.1.length ≤ bufLen) := by
  have hp : Vxp.pull v up bufLen = v.drain bufLen out := by
    obtain ⟨st, bd, sn⟩ := v
    cases hsent
    exact Vxp.pull_sent_eq st bd out up bufLen
  have hchunk : (v.drain bufLen out).2.1.length = min bufLen (v.body.length - out) := by
    show ((v.body.drop out).take (min bufLen (v.body.length - out))).length
      = min bufLen (v.body.length - out)
    rw [List.length_take, List.length_drop]
    omega
  have hres : (v.drain bufLen out).1
      = (if out + min bufLen (v.body.length - out) = v.body.length then
          PullResult.End (min bufLen (v.body.length - out))
         else PullResult.Ok (min bufLen (v.body.length - out))) := rfl
  have hst : (v.drain bufLen out).2.2.sent
      = some (out + min bufLen (v.body.length - out)) := rfl
  rw [hp]
  refine ⟨?_, ?_, rfl, ?_, ?_, fun w u => Vxp.pull_chunk_le bufLen u w⟩
  · rw [hchunk]
    exact min_le_left _ _
  · rw [hchunk, hst]
  · rw [hchunk, hres]
    by_cases h : out + min bufLen (v.body.length - out) = v.body.length
    · rw [if_pos h]
      exact ⟨fun _ => h, fun _ => rfl⟩
    · rw [if_neg h]
      constructor
      · intro hc
        cases hc
      · intro hc
        exact absurd hc h
  · intro h
    rw [hchunk] at h ⊢
    rw [hres, if_neg (by omega)]

/-- The Vxp state used by the C4 witness: three transformed bytes, cursor 1. -/
def vxpDraining : Vxp := { steps := [], body := [104, 105, 106], sent := some 1 }

/-- C4 witness: body of three bytes, cursor at 1, caller buffer of two bytes:
the call returns the final two bytes and the End marker. -/
theorem pull_drain_contract_witness :
    vxpDraining.sent = some 1
    ∧ 1 ≤ vxpDraining.body.length
    ∧ ((Vxp.pull vxpDraining [] 2).2.1.length ≤ 2
       ∧ (Vxp.pull vxpDraining [] 2).2.2.sent
          = some (1 + (Vxp.pull vxpDraining [] 2).2.1.length)
       ∧ (Vxp.pull vxpDraining [] 2).2.2.body = vxpDraining.body
       ∧ ((Vxp.pull vxpDraining [] 2).1
            = PullResult.End ((Vxp.pull vxpDraining [] 2).2.1.length)
          ↔ 1 + (Vxp.pull vxpDraining [] 2).2.1.length = vxpDraining.body.length)
       ∧ (1 + (Vxp.pull vxpDraining [] 2).2.1.length < vxpDraining.body.length →
          (Vxp.pull vxpDraining [] 2).1
            = PullResult.Ok ((Vxp.pull vxpDraining [] 2).2.1.length))
       ∧ (∀ (w : Vxp) (u : List UpChunk), (Vxp.pull w u 2).2.1.length ≤ 2))
    ∧ (Vxp.pull vxpDraining [] 2).1 = PullResult.End 2
    ∧ (Vxp.pull vxpDraining [] 2).2.1 = [105, 106] :=
  ⟨rfl, by decide,
    pull_drain_contract vxpDraining [] 2 1 rfl (by decide),
    rfl, rfl⟩

/-- The matcher the literal engine produces for the pattern `z`. -/
def zRegex : CompiledRegex :=
  { findMatches := literalMatches (literalNeedle "z")
    captures := literalCaptures (literalNeedle "z") }

/-- The matcher the literal engine produces for the pattern `a`. -/
def aRegex : CompiledRegex :=
  { findMatches := literalMatches (literalNeedle "a")
    captures := literalCaptures (literalNeedle "a") }

/-- The capture set of the single-letter match `a`. -/
def capsA : CapturesVal := { groups := [some (asciiBytes "a")], names := [] }

/-- A pre-existing capture context, present before a failing capture call. -/
def priorCtx : Captures :=
  { caps := { groups := [some (asciiBytes "x")], names := [] }, text := none }

/-- C7 (amended): `capture` attempts the match after the compile; on failure —
compile error or no match — it returns false and leaves any prior capture
context in place (it is not cleared, so a later group call still sees the old
capture); on success it stores the new capture set, replacing any prior one
wholesale. -/
theorem capture_failure_keeps_context (E : RegexEngine) (l : Cache) (vp : Option Captures)
    (s s2 s3 : Bytes) (res1 e res2 res3 : String) (re2 re3 : CompiledRegex)
    (caps3 : CapturesVal)
    (hcons : CacheConsistent E l)
    (h1 : E.compile res1 = Except.error e)
    (h2 : E.compile res2 = Except.ok re2) (hm2 : re2.captures s2 = none)
    (h3 : E.compile res3 = Except.ok re3) (hm3 : re3.captures s3 = some caps3) :
    (init.capture E l vp s res1).1 = false
    ∧ (init.capture E l vp s res1).2.1 = vp
    ∧ (init.capture E l vp s2 res2).1 = false
    ∧ (init.capture E l vp s2 res2).2.1 = vp
    ∧ (init.capture E l vp s3 res3).1 = true
    ∧ (init.capture E l vp s3 res3).2.1 = some { caps := caps3, text := none } := by
  have hp1 : init.get_regex E l res1 = (Except.error e, (init.get_regex E l res1).2) :=
    Prod.ext ((init.get_regex_val res1 hcons).trans h1) rfl
  have hp2 : init.get_regex E l res2 = (Except.ok re2, (init.get_regex E l res2).2) :=
    Prod.ext ((init.get_regex_val res2 hcons).trans h2) rfl
  have hp3 : init.get_regex E l res3 = (Except.ok re3, (init.get_regex E l res3).2) :=
    Prod.ext ((init.get_regex_val res3 hcons).trans h3) rfl
  have he : init.capture E l vp s res1 = (false, vp, (init.get_regex E l res1).2) := by
    unfold init.capture
    rw [hp1]
  have hn : init.capture E l vp s2 res2 = (false, vp, (init.get_regex E l res2).2) := by
    unfold init.capture
    rw [hp2]
    show (match re2.captures s2 with
      | none => (false, vp, (init.get_regex E l res2).2)
      | some caps => (true, some { caps := caps, text := none },
          (init.get_regex E l res2).2))
      = (false, vp, (init.get_regex E l res2).2)
    rw [hm2]
  have hsu : init.capture E l vp s3 res3
      = (true, some { caps := caps3, text := none }, (init.get_regex E l res3).2) := by
    unfold init.capture
    rw [hp3]
    show (match re3.captures s3 with
      | none => (false, vp, (init.get_regex E l res3).2)
      | some caps => (true, some { caps := caps, text := none },
          (init.get_regex E l res3).2))
      = (true, some { caps := caps3, text := none }, (init.get_regex E l res3).2)
    rw [hm3]
  rw [he, hn, hsu]
  exact ⟨rfl, rfl, rfl, rfl, rfl, rfl⟩

/-- C7 witness: a prior context, a compile failure on `(`, a no-match on `z`
against `y`, and a successful capture of `a` against `a`. -/
theorem capture_failure_keeps_context_witness :
    CacheConsistent literalEngine (init.new 1000)
    ∧ literalEngine.compile "(" = Except.error "regex parse error: unclosed group"
    ∧ literalEngine.compile "z" = Except.ok zRegex
    ∧ zRegex.captures (asciiBytes "y") = none
    ∧ literalEngine.compile "a" = Except.ok aRegex
    ∧ aRegex.captures (asciiBytes "a") = some capsA
    ∧ ((init.capture literalEngine (init.new 1000) (some priorCtx) (asciiBytes "y") "(").1
          = false
       ∧ (init.capture literalEngine (init.new 1000) (some priorCtx) (asciiBytes "y")
            "(").2.1 = some priorCtx
       ∧ (init.capture literalEngine (init.new 1000) (some priorCtx) (asciiBytes "y") "z").1
          = false
       ∧ (init.capture literalEngine (init.new 1000) (some priorCtx) (asciiBytes "y")
            "z").2.1 = some priorCtx
       ∧ (init.capture literalEngine (init.new 1000) (some priorCtx) (asciiBytes "a") "a").1
          = true
       ∧ (init.capture literalEngine (init.new 1000) (some priorCtx) (asciiBytes "a")
            "a").2.1 = some { caps := capsA, text := none }) :=
  ⟨cacheConsistent_new literalEngine 1000, rfl, rfl, rfl, rfl, rfl,
    capture_failure_keeps_context literalEngine (init.new 1000) (some priorCtx)
      (asciiBytes "y") (asciiBytes "y") (asciiBytes "a") "(" "regex parse error: unclosed group"
      "z" "a" zRegex aRegex capsA (cacheConsistent_new literalEngine 1000)
      rfl rfl rfl rfl rfl⟩

/-- C7 counterexample: after a failed `capture` (invalid pattern `(`), the
prior context is still in place and `group(0)` returns the old whole match —
the context is not cleared and a subsequent group call does not return the
absent value the claim requires. The same holds after a no-match failure
(pattern `z` against `y`). -/
theorem capture_clears_context_counterexample :
    (init.capture literalEngine (init.new 1000) (some priorCtx) (asciiBytes "y") "(").1
        = false
    ∧ (init.capture literalEngine (init.new 1000) (some priorCtx) (asciiBytes "y") "(").2.1
        = some priorCtx
    ∧ init.group ((init.capture literalEngine (init.new 1000) (some priorCtx)
        (asciiBytes "y") "(").2.1) 0 = some (asciiBytes "x")
    ∧ (init.capture literalEngine (init.new 1000) (some priorCtx) (asciiBytes "y") "z").2.1
        = some priorCtx :=
  ⟨rfl, rfl, rfl, rfl⟩

/-- C8 (amended): `capture_req_body` checks the pattern first: a compile
failure yields false (not an error) even when the body was never buffered;
the missing-body error is propagated exactly for patterns that do compile;
with a buffered body, a non-match yields false, and on success the coalesced
buffer moves into the stored capture context. -/
theorem capture_req_body_error_contract (E : RegexEngine) (l : Cache)
    (vp : Option Captures) (bOpt : Option (List Bytes)) (chunks chunks2 : List Bytes)
    (res1 e res2 res3 : String) (re2 re3 : CompiledRegex) (caps3 : CapturesVal)
    (hcons : CacheConsistent E l)
    (h1 : E.compile res1 = Except.error e)
    (h2 : E.compile res2 = Except.ok re2)
    (hm2 : re2.captures (coalesce chunks) = none)
    (h3 : E.compile res3 = Except.ok re3)
    (hm3 : re3.captures (coalesce chunks2) = some caps3) :
    (init.capture_req_body E l vp bOpt res1).1 = Except.ok (false, vp)
    ∧ (init.capture_req_body E l vp none res2).1
        = Except.error "Request body has not been cached"
    ∧ (init.capture_req_body E l vp (some chunks) res2).1 = Except.ok (false, vp)
    ∧ (init.capture_req_body E l vp (some chunks2) res3).1
        = Except.ok (true, some { caps := caps3, text := some (coalesce chunks2) }) := by
  have hp1 : init.get_regex E l res1 = (Except.error e, (init.get_regex E l res1).2) :=
    Prod.ext ((init.get_regex_val res1 hcons).trans h1) rfl
  have hp2 : init.get_regex E l res2 = (Except.ok re2, (init.get_regex E l res2).2) :=
    Prod.ext ((init.get_regex_val res2 hcons).trans h2) rfl
  have hp3 : init.get_regex E l res3 = (Except.ok re3, (init.get_regex E l res3).2) :=
    Prod.ext ((init.get_regex_val res3 hcons).trans h3) rfl
  refine ⟨?_, ?_, ?_, ?_⟩
  · unfold init.capture_req_body
    rw [hp1]
  · unfold init.capture_req_body
    rw [hp2]
  · unfold init.capture_req_body
    rw [hp2]
    show (match re2.captures (coalesce chunks) with
      | none => (Except.ok (false, vp), (init.get_regex E l res2).2)
      | some caps =>
          (Except.ok (true, some { caps := caps, text := some (coalesce chunks) }),
            (init.get_regex E l res2).2)).1 = Except.ok (false, vp)
    rw [hm2]
  · unfold init.capture_req_body
    rw [hp3]
    show (match re3.captures (coalesce chunks2) with
      | none => (Except.ok (false, vp), (init.get_regex E l res3).2)
      | some caps =>
          (Except.ok (true, some { caps := caps, text := some (coalesce chunks2) }),
            (init.get_regex E l res3).2)).1
      = Except.ok (true, some { caps := caps3, text := some (coalesce chunks2) })
    rw [hm3]

/-- C8 witness: invalid pattern `(` with and without a buffered body, a
compiling pattern with no buffered body, a no-match, and a success whose
context keeps the coalesced buffer. -/
theorem capture_req_body_error_contract_witness :
    CacheConsistent literalEngine (init.new 1000)
    ∧ literalEngine.compile "(" = Except.error "regex parse error: unclosed group"
    ∧ literalEngine.compile "z" = Except.ok zRegex
    ∧ zRegex.captures (coalesce [asciiBytes "y"]) = none
    ∧ literalEngine.compile "a" = Except.ok aRegex
    ∧ aRegex.captures (coalesce [asciiBytes "b", asciiBytes "a"]) = some capsA
    ∧ ((init.capture_req_body literalEngine (init.new 1000) none none "(").1
          = Except.ok (false, none)
       ∧ (init.capture_req_body literalEngine (init.new 1000) none none "z").1
          = Except.error "Request body has not been cached"
       ∧ (init.capture_req_body literalEngine (init.new 1000) none
            (some [asciiBytes "y"]) "z").1 = Except.ok (false, none)
       ∧ (init.capture_req_body literalEngine (init.new 1000) none
            (some [asciiBytes "b", asciiBytes "a"]) "a").1
          = Except.ok (true,
              some { caps := capsA, text := some (coalesce [asciiBytes "b", asciiBytes "a"]) })) :=
  ⟨cacheConsistent_new literalEngine 1000, rfl, rfl, rfl, rfl, rfl,
    capture_req_body_error_contract literalEngine (init.new 1000) none none
      [asciiBytes "y"] [asciiBytes "b", asciiBytes "a"] "("
      "regex parse error: unclosed group" "z" "a" zRegex aRegex capsA
      (cacheConsistent_new literalEngine 1000) rfl rfl rfl rfl rfl⟩

/-- C8 counterexample: the body was never pre-buffered (`none`), yet the call
does not fail — the invalid pattern `(` short-circuits to `Ok(false)` before
the body is consulted, refuting the claimed only-if direction of the
equivalence between errors and a missing pre-buffered body. -/
theorem capture_req_body_iff_counterexample :
    (init.capture_req_body literalEngine (init.new 1000) none none "(").1
      = Except.ok (false, none) := rfl

/-- The capture set of the date example from the specification: whole match
`2024-01-02` with three numbered sub-groups and one named group. -/
def dateCaps : CapturesVal :=
  { groups := [some (asciiBytes "2024-01-02"), some (asciiBytes "2024"),
      some (asciiBytes "01"), some (asciiBytes "02")]
    names := [("y", some (asciiBytes "2024"))] }

/-- The capture context holding `dateCaps`. -/
def dateCtx : Captures := { caps := dateCaps, text := none }

/-- C9: `group` returns the sub-match at the requested index of the most
recent capture (index 0 the whole match); with no active capture, or an
out-of-range index, it returns the absent value — the return type has no
error case at all; `named_group` follows the same contract keyed by name,
with an undefined name absent. -/
theorem group_access_contract (c : Captures) (i : Nat) (n : Int) (nm nm2 : String)
    (w : Option Bytes) (w0 : Bytes)
    (hw : c.caps.groups.get? i = some w)
    (h0 : c.caps.groups.get? 0 = some (some w0))
    (hout : c.caps.groups.length ≤ clamp_i64_to_usize n)
    (hnm : c.caps.names.lookup nm2 = none) :
    init.group none n = none
    ∧ init.named_group none nm = none
    ∧ init.group (some c) n = none
    ∧ init.group (some c) (Int.ofNat i) = w
    ∧ init.group (some c) 0 = some w0
    ∧ init.named_group (some c) nm = (c.caps.names.lookup nm).join
    ∧ init.named_group (some c) nm2 = none := by
  refine ⟨rfl, rfl, ?_, ?_, ?_, rfl, ?_⟩
  · show (c.caps.groups.get? (clamp_i64_to_usize n)).join = none
    rw [List.get?_eq_none.mpr hout]
    rfl
  · show (c.caps.groups.get? (clamp_i64_to_usize (Int.ofNat i))).join = w
    have hcl : clamp_i64_to_usize (Int.ofNat i) = i := by
      unfold clamp_i64_to_usize
      rw [if_neg (by simp only [Int.ofNat_eq_coe]; omega)]
      rfl
    rw [hcl, hw]
    rfl
  · show (c.caps.groups.get? (clamp_i64_to_usize 0)).join = some w0
    rw [show clamp_i64_to_usize 0 = 0 from rfl, h0]
    rfl
  · show (c.caps.names.lookup nm2).join = none
    rw [hnm]
    rfl

/-- C9 witness: the date example of the specification — `group(0)` is the
whole match, `group(2)` is `01`, `group(9)` is absent, the named group `y`
is present and the undefined name `m` is absent. -/
theorem group_access_contract_witness :
    dateCtx.caps.groups.get? 2 = some (some (asciiBytes "01"))
    ∧ dateCtx.caps.groups.get? 0 = some (some (asciiBytes "2024-01-02"))
    ∧ dateCtx.caps.groups.length ≤ clamp_i64_to_usize 9
    ∧ dateCtx.caps.names.lookup "m" = none
    ∧ (init.group none 9 = none
       ∧ init.named_group none "y" = none
       ∧ init.group (some dateCtx) 9 = none
       ∧ init.group (some dateCtx) (Int.ofNat 2) = some (asciiBytes "01")
       ∧ init.group (some dateCtx) 0 = some (asciiBytes "2024-01-02")
       ∧ init.named_group (some dateCtx) "y" = (dateCtx.caps.names.lookup "y").join
       ∧ init.named_group (some dateCtx) "m" = none) :=
  ⟨by decide, by decide, by decide, by decide,
    group_access_contract dateCtx 2 9 "y" "m" (some (asciiBytes "01"))
      (asciiBytes "2024-01-02") (by decide) (by decide) (by decide) (by decide)⟩

/-- C10: a negative index is clamped to 0 before the lookup, so for any active
capture `group(n)` with `n < 0` coincides with `group(0)` — the whole match —
rather than being absent. -/
theorem group_negative_index_clamps (vp : Option Captures) (c : Captures) (n : Int)
    (w : Bytes) (hvp : vp = some c) (hn : n < 0)
    (h0 : c.caps.groups.get? 0 = some (some w)) :
    init.group vp n = init.group vp 0
    ∧ init.group vp n = some w
    ∧ init.group vp n ≠ none := by
  subst hvp
  have hcl : clamp_i64_to_usize n = 0 := by
    unfold clamp_i64_to_usize
    rw [if_pos hn]
  have hv : init.group (some c) n = some w := by
    show (c.caps.groups.get? (clamp_i64_to_usize n)).join = some w
    rw [hcl, h0]
    rfl
  have hv0 : init.group (some c) 0 = some w := by
    show (c.caps.groups.get? (clamp_i64_to_usize 0)).join = some w
    rw [show clamp_i64_to_usize 0 = 0 from rfl, h0]
    rfl
  refine ⟨hv.trans hv0.symm, hv, ?_⟩
  rw [hv]
  intro hc
  cases hc

/-- C10 witness: `group(-5)` on the date capture returns the whole match. -/
theorem group_negative_index_clamps_witness :
    some dateCtx = some dateCtx
    ∧ (-5 : Int) < 0
    ∧ dateCtx.caps.groups.get? 0 = some (some (asciiBytes "2024-01-02"))
    ∧ (init.group (some dateCtx) (-5) = init.group (some dateCtx) 0
       ∧ init.group (some dateCtx) (-5) = some (asciiBytes "2024-01-02")
       ∧ init.group (some dateCtx) (-5) ≠ none) :=
  ⟨rfl, by omega, by decide,
    group_negative_index_clamps (some dateCtx) dateCtx (-5) (asciiBytes "2024-01-02")
      rfl (by omega) (by decide)⟩

end Rers
